import Mathlib

/-!
Verification development for the cluster resource quota admission plugin
(`clusterresourcequota`) and the image policy admission plugin (`imagepolicy`)
of the repository.  The Go sources are shallowly embedded: pure decision logic
becomes Lean functions, the informer caches and the authoritative stores become
explicit function-valued parameters, wall-clock time becomes a natural-number
time stamp in milliseconds, and the poll loop of `waitForSyncedStore` becomes a
step-indexed recursion with explicit fuel.
-/

namespace ClusterResourceQuota

/-- A cluster resource quota document as seen by the lock acquisition code:
only the object name is consulted there (`quota.Name`). -/
structure ResourceQuota where
  name : String
deriving DecidableEq, Repr

/-- The order used by `ByName`: `v[i].Name < v[j].Name` is the strict `Less`;
sorting with it yields a list sorted under `≤` on names. -/
def quotaLe (a b : ResourceQuota) : Prop := a.name ≤ b.name

instance : DecidableRel quotaLe := fun a b => by
  unfold quotaLe; infer_instance

instance : IsTotal ResourceQuota quotaLe := ⟨fun a b => le_total a.name b.name⟩

instance : IsTrans ResourceQuota quotaLe := ⟨fun _ _ _ h h' => le_trans h h'⟩

/-- `sort.Sort(ByName(quotas))` from `lockAquisition`: a comparison sort on the
document name; embedded as insertion sort, which produces a name-sorted
permutation of the input exactly as Go's `sort.Sort` with `ByName.Less` does. -/
def sortQuotasByName (quotas : List ResourceQuota) : List ResourceQuota :=
  List.insertionSort quotaLe quotas

/-- The sequence of lock keys acquired by `lockAquisition`: it walks the sorted
quota list and calls `q.lockFactory.GetLock(quota.Name).Lock()` on each. -/
def acquireOrder (quotas : List ResourceQuota) : List String :=
  (sortQuotasByName quotas).map (·.name)

/-- The release closure returned by `lockAquisition`:
`for i := len(locks) - 1; i >= 0; i-- { locks[i].Unlock() }`, transliterated as
a map over the descending index range. -/
def releaseLoop (locks : List String) : List String :=
  (List.range locks.length).reverse.map (fun i => locks.getD i "")

/-- `clusterQuotaAdmission.lockAquisition`, abstracted to the lock keys it
touches: first component is the acquisition order of the per-document locks,
second component is the order in which the returned closure releases them. -/
def lockAquisition (quotas : List ResourceQuota) : List String × List String :=
  let locks := acquireOrder quotas
  (locks, releaseLoop locks)

/-- `timeToWaitForCacheSync = 10 * time.Second`, in milliseconds. -/
def timeToWaitForCacheSyncMs : Nat := 10 * 1000

/-- The poll interval of `waitForSyncedStore`: `time.After(100 * time.Millisecond)`. -/
def syncPollIntervalMs : Nat := 100

/-- Number of 100ms polls that fit in the 10s cache-sync timeout. -/
def syncPollBudget : Nat := timeToWaitForCacheSyncMs / syncPollIntervalMs

/-- `clusterQuotaAdmission.waitForSyncedStore`, step-indexed: `cq s` and
`nsOk s` are the values `q.clusterQuotaSynced()` and `q.namespaceSynced()`
return at the s-th read.  While the informers are not synced the loop sleeps
100ms and polls again; when the timeout fires (fuel exhausted) it returns one
final joint read, mirroring `return q.clusterQuotaSynced() && q.namespaceSynced()`. -/
def waitForSyncedStore (cq nsOk : Nat → Bool) : Nat → Nat → Bool
  | step, 0 => if cq step && nsOk step then true else cq (step + 1) && nsOk (step + 1)
  | step, fuel + 1 =>
    if cq step && nsOk step then true else waitForSyncedStore cq nsOk (step + 1) fuel

/-- The part of `admission.Attributes` that `clusterQuotaAdmission.Validate`
consults before delegating to the evaluator. -/
structure QuotaAttributes where
  subresource : String
  ns : String
deriving DecidableEq, Repr

/-- Outcome of an admission call: `nil` error, or a Forbidden error with the
message of the wrapped error. -/
inductive AdmissionResult where
  | ok : AdmissionResult
  | forbidden : String → AdmissionResult
deriving DecidableEq, Repr

/-- Observable trace of one `Validate` call: its result, whether it waited for
the caches, whether it ran the quota evaluator, and which per-document locks
the evaluation acquired (via `lockAquisition`). -/
structure QuotaValidateOutcome where
  result : AdmissionResult
  waitedForSync : Bool
  evaluated : Bool
  locksAcquired : List String
deriving DecidableEq, Repr

/-- `clusterQuotaAdmission.Validate`: ignores subresource operations and
cluster-scoped (namespace-less) operations, then waits for the informer caches
and fails closed with `Forbidden("caches not synchronized")` when the wait
fails, and otherwise delegates to `q.evaluator.Evaluate(a)` (supplied here as
the function `evaluator`, which also reports the lock keys it acquires). -/
def clusterQuotaValidate (cq nsOk : Nat → Bool)
    (evaluator : QuotaAttributes → AdmissionResult × List String)
    (a : QuotaAttributes) : QuotaValidateOutcome :=
  if a.subresource ≠ "" then ⟨.ok, false, false, []⟩
  else if a.ns = "" then ⟨.ok, false, false, []⟩
  else if waitForSyncedStore cq nsOk 0 syncPollBudget = false then
    ⟨.forbidden "caches not synchronized", true, false, []⟩
  else
    ⟨(evaluator a).1, true, true, (evaluator a).2⟩

end ClusterResourceQuota

namespace ImagePolicy

/-- `imageapi.DockerImageReference` (library type): the parsed form of a docker
pull spec, with registry, namespace (`ns` here), name, optional tag and
optional content-addressed digest `id`. -/
structure DockerImageReference where
  registry : String
  ns : String
  name : String
  tag : String
  id : String
deriving DecidableEq, Repr

/-- The Go zero value of `DockerImageReference`. -/
def DockerImageReference.empty : DockerImageReference := ⟨"", "", "", "", ""⟩

/-- `DockerImageReference.Exact()` (library helper, external collaborator):
the exact string form of the reference, used only in an error message. -/
def DockerImageReference.exact (r : DockerImageReference) : String :=
  (if r.registry = "" then "" else r.registry ++ "/") ++
    (if r.ns = "" then "" else r.ns ++ "/") ++ r.name ++
    (if r.tag = "" then "" else ":" ++ r.tag) ++
    (if r.id = "" then "" else "@" ++ r.id)

/-- `imagev1.Image`, restricted to the fields the resolver reads: the metadata
name (the digest) and the canonical `DockerImageReference` string. -/
structure Image where
  name : String
  dockerImageReference : String
deriving DecidableEq, Repr

/-- `rules.ImagePolicyAttributes`, restricted to the fields the resolution
paths under test set: `Name`, `Image`, `IntegratedRegistry`, `LocalRewrite`.
A `none` image is Go's nil `*imagev1.Image`. -/
structure ImagePolicyAttributes where
  name : DockerImageReference
  image : Option Image
  integratedRegistry : Bool
  localRewrite : Bool
deriving DecidableEq, Repr

/-- `imageCacheEntry`: an image plus its absolute expiration time stamp. -/
structure ImageCacheEntry where
  expires : Nat
  image : Image
deriving DecidableEq, Repr

/-- The image resolution cache contents, keyed by digest.  The source uses a
hashicorp LRU cache of capacity 128; `Get`/`Add` on a present or just-added
key behave as on this association list (capacity eviction only discards other,
least recently used keys and is not consulted by the claims below). -/
abbrev ImageCache := List (String × ImageCacheEntry)

/-- `c.cache.Get(key)`. -/
def cacheGet (c : ImageCache) (k : String) : Option ImageCacheEntry :=
  (c.find? (fun p => p.1 == k)).map (·.2)

/-- `c.cache.Add(key, entry)`: the key becomes present (and most recent) with
the new entry. -/
def cacheAdd (c : ImageCache) (k : String) (e : ImageCacheEntry) : ImageCache :=
  (k, e) :: c.filter (fun p => p.1 != k)

/-- A failed API call from the image client, with the parts that
`isImageStreamTagNotFound` inspects: whether `apierrs.IsNotFound` holds and
the optional `Status().Details` pair (kind, group). -/
structure StoreError where
  isNotFound : Bool
  details : Option (String × String)
deriving DecidableEq, Repr

/-- An error returned by the resolution paths: either a store error passed
through, or an error message built with `fmt.Errorf`. -/
inductive ResolveError where
  | store : StoreError → ResolveError
  | msg : String → ResolveError
deriving DecidableEq, Repr

/-- `isImageStreamTagNotFound`: true iff the error is NotFound and its status
details name the `imagestreamtags` kind in group `image.openshift.io`. -/
def isImageStreamTagNotFound (e : StoreError) : Bool :=
  e.isNotFound &&
    match e.details with
    | none => false
    | some (kind, group) => kind == "imagestreamtags" && group == "image.openshift.io"

/-- The fields of an `imagev1.ImageStreamTag` the resolver reads:
`resolved.LookupPolicy.Local` and `resolved.Image`. -/
structure ImageStreamTagObj where
  lookupLocal : Bool
  image : Image
deriving DecidableEq, Repr

/-- The fields of an `imagev1.ImageStream` the fallback path reads:
`stream.Spec.LookupPolicy.Local` and `stream.Status.DockerImageRepository`. -/
structure ImageStream where
  lookupLocal : Bool
  statusRepository : String
deriving DecidableEq, Repr

/-- The authoritative image store (`imagev1typedclient.ImageV1Interface`,
external collaborator): `Images().Get`, `ImageStreamTags(ns).Get(name:tag)`
and `ImageStreams(ns).Get(name)`. -/
structure ImageClient where
  getImage : String → Except StoreError Image
  getImageStreamTag : String → String → String → Except StoreError ImageStreamTagObj
  getImageStream : String → String → Except StoreError ImageStream

/-- `imageResolutionCache`: the client, the integrated registry matcher
(`c.integrated.Matches`), the fixed TTL, and the cache contents. -/
structure ImageResolutionCacheState where
  imageClient : ImageClient
  integrated : String → Bool
  expiration : Nat
  cache : ImageCache

/-- One minute in milliseconds (`time.Minute`), the fixed cache TTL. -/
def minuteMs : Nat := 60 * 1000

/-- `newImageResolutionCache`: fresh LRU cache (capacity 128) and a one-minute
expiration window. -/
def newImageResolutionCache (client : ImageClient) (integrated : String → Bool) :
    ImageResolutionCacheState :=
  ⟨client, integrated, minuteMs, []⟩

/-- Result of a resolution call: the returned attributes (nil-able pointer),
the returned error, and the cache contents after the call. -/
structure ResolveResult where
  attrs : Option ImagePolicyAttributes
  err : Option ResolveError
  cache : ImageCache
deriving DecidableEq, Repr

/-- The cache consultation at the top of the digest branch of
`resolveImageReference`: a live entry (present and `now.Before(expires)`)
yields its image; an absent or expired entry yields nothing. -/
def digestCacheHit (c : ImageCache) (now : Nat) (id : String) : Option Image :=
  match cacheGet c id with
  | some cached => if now < cached.expires then some cached.image else none
  | none => none

/-- The digest branch of `resolveImageReference` (`if len(ref.ID) > 0`):
return the live cached image, or fetch `Images().Get(ref.ID)`, cache the
result for `now + c.expiration`, and return it. -/
def resolveByDigest (c : ImageResolutionCacheState) (now : Nat)
    (ref : DockerImageReference) : ResolveResult :=
  match digestCacheHit c.cache now ref.id with
  | some img => ⟨some ⟨ref, some img, false, false⟩, none, c.cache⟩
  | none =>
    match c.imageClient.getImage ref.id with
    | .error e => ⟨none, some (.store e), c.cache⟩
    | .ok image =>
      ⟨some ⟨ref, some image, c.integrated ref.registry, false⟩, none,
        cacheAdd c.cache ref.id ⟨now + c.expiration, image⟩⟩

/-- `imageResolutionCache.resolveImageStreamTag`.  `parseRef` stands for the
library function `reference.Parse` (external collaborator); `localRef` is the
`partial` parameter of the source.  On a tag lookup error that
`isImageStreamTagNotFound` recognises, a stream that resolves local names
(or forced resolution) with a known repository yields a synthesized
repository:tag reference with `LocalRewrite=true` and no image; otherwise the
original error is returned.  On success the bound image's canonical reference
is parsed, its tag stripped, its id set, and the image cached by digest. -/
def resolveImageStreamTag (parseRef : String → Except String DockerImageReference)
    (c : ImageResolutionCacheState) (now : Nat) (ns name tag : String)
    (localRef force : Bool) : ResolveResult :=
  let attrs0 : ImagePolicyAttributes := ⟨DockerImageReference.empty, none, true, false⟩
  match c.imageClient.getImageStreamTag ns name tag with
  | .error e =>
    let attrs1 := if localRef then { attrs0 with integratedRegistry := false } else attrs0
    if isImageStreamTagNotFound e then
      match c.imageClient.getImageStream ns name with
      | .ok stream =>
        if (force || stream.lookupLocal) && stream.statusRepository ≠ "" then
          match parseRef stream.statusRepository with
          | .ok r =>
            ⟨some { attrs1 with name := { r with tag := tag }, localRewrite := true },
              none, c.cache⟩
          | .error _ => ⟨some attrs1, some (.store e), c.cache⟩
        else ⟨some attrs1, some (.store e), c.cache⟩
      | .error _ => ⟨some attrs1, some (.store e), c.cache⟩
    else ⟨some attrs1, some (.store e), c.cache⟩
  | .ok resolved =>
    if localRef && (!force && !resolved.lookupLocal) then
      ⟨some { attrs0 with integratedRegistry := false },
        some (.msg "ImageStreamTag does not allow local references and the resource did not request image stream resolution"),
        c.cache⟩
    else
      let attrs1 := if localRef then { attrs0 with localRewrite := true } else attrs0
      match parseRef resolved.image.dockerImageReference with
      | .error perr =>
        ⟨some attrs1,
          some (.msg ("image reference " ++ resolved.image.dockerImageReference ++
            " could not be parsed: " ++ perr)), c.cache⟩
      | .ok r =>
        ⟨some { attrs1 with
            name := { r with tag := "", id := resolved.image.name },
            image := some resolved.image },
          none, cacheAdd c.cache resolved.image.name ⟨now + c.expiration, resolved.image⟩⟩

/-- `imageResolutionCache.resolveImageReference`: digest-qualified references
take the digest branch; otherwise the reference is treated as an image stream
tag when it points at the integrated registry, is a single-segment local name,
or resolution is forced, and fails otherwise. -/
def resolveImageReference (parseRef : String → Except String DockerImageReference)
    (c : ImageResolutionCacheState) (now : Nat) (ref : DockerImageReference)
    (defaultNamespace : String) (force : Bool) : ResolveResult :=
  if ref.id ≠ "" then resolveByDigest c now ref
  else
    let fullReference := c.integrated ref.registry
    let localRef := force || (ref.registry = "" && ref.ns = "" && ref.name ≠ "")
    if !fullReference && !localRef then
      ⟨none, some (.msg ("(" ++ ref.exact ++ ") could not be resolved to an exact image reference")),
        c.cache⟩
    else
      let tag := if ref.tag = "" then "latest" else ref.tag
      let ns := if ref.ns = "" || force then defaultNamespace else ref.ns
      resolveImageStreamTag parseRef c now ns ref.name tag localRef force

/-- `admission.Operation` values distinguished by `imagePolicyPlugin.admit`. -/
inductive AdmissionOperation where
  | create | update | delete | connect
deriving DecidableEq, Repr

/-- Observable outcome of one `imagePolicyPlugin.admit` call: the returned
error (none is nil), whether the incoming object was inspected past the
operation/subresource gate, and whether it was mutated. -/
structure ImagePolicyAdmissionOutcome where
  err : Option String
  objectInspected : Bool
  objectMutated : Bool
deriving DecidableEq, Repr

/-- `imagePolicyPlugin.admit` up to its operation/subresource gate: only
`Create` and `Update` on a non-subresource fall through to the rest of the
admission body (`body`, which covers the accepter/resolver logic); every other
operation, and every subresource write, returns nil immediately. -/
def imagePolicyAdmission (op : AdmissionOperation) (subresource : String)
    (body : Unit → ImagePolicyAdmissionOutcome) : ImagePolicyAdmissionOutcome :=
  match op with
  | .create | .update =>
    if subresource ≠ "" then ⟨none, false, false⟩ else body ()
  | _ => ⟨none, false, false⟩

/-- `kapi.ObjectReference`, restricted to the fields the image reference
mutators touch. -/
structure ObjectReference where
  kind : String
  name : String
deriving DecidableEq, Repr

/-- Modelled from the spec: the underlying `ImageReferenceMutator` (package
`internalimagereferencemutators`, not under src).  Per the spec's
rewrite-in-place contract it applies the mutation function to a copy of each
image reference field of the object and writes the result back only when the
function returns no error; errors are collected and returned. -/
def mutateRefs (fn : ObjectReference → Except String ObjectReference) :
    List ObjectReference → List ObjectReference × List String
  | [] => ([], [])
  | r :: rest =>
    let tail := mutateRefs fn rest
    match fn r with
    | .ok r' => (r' :: tail.1, tail.2)
    | .error e => (r :: tail.1, e :: tail.2)

/-- The closure `mutationPreventer.Mutate` wraps around the caller's mutation
function: a function error becomes `error in image policy validation: ...`,
and a mutation that changes the reference from its original value becomes
`this image is prohibited by policy (changed after admission)`. -/
def mutationPreventerFn (fn : ObjectReference → Except String ObjectReference)
    (ref : ObjectReference) : Except String ObjectReference :=
  match fn ref with
  | .error e => .error ("error in image policy validation: " ++ e)
  | .ok ref' =>
    if ref' ≠ ref then
      .error "this image is prohibited by policy (changed after admission)"
    else .ok ref'

/-- `mutationPreventer.Mutate`: the underlying mutator run with the wrapped
mutation function. -/
def mutationPreventerMutate (fn : ObjectReference → Except String ObjectReference)
    (refs : List ObjectReference) : List ObjectReference × List String :=
  mutateRefs (mutationPreventerFn fn) refs

/-- The mutator `imagePolicyPlugin.admit` uses: the raw object mutator when
mutation is allowed (`Admit`), the `mutationPreventer` wrapper in validation
mode (`Validate`, i.e. `mutationAllowed=false`). -/
def admissionMutate (mutationAllowed : Bool)
    (fn : ObjectReference → Except String ObjectReference)
    (refs : List ObjectReference) : List ObjectReference × List String :=
  if mutationAllowed then mutateRefs fn refs else mutationPreventerMutate fn refs

/-- `metav1.GroupResource`. -/
structure GroupResource where
  group : String
  resource : String
deriving DecidableEq, Repr

/-- Modelled from the spec: the resolution policy enum `ImageResolutionType`
(package `imagepolicy/v1`, not under src) with the constants the repository's
configuration and tests use. -/
inductive ImageResolutionType where
  | doNotAttempt | attempt | attemptRewrite | required | requiredRewrite
deriving DecidableEq, Repr

/-- Modelled from the spec: the helper `RewriteImagePullSpec` on the policy
enum (package `imagepolicy/v1`, not under src).  Per the spec's resolution
policies and the repository's tests, exactly `AttemptRewrite` and
`RequiredRewrite` request rewriting of pull specs. -/
def rewritePolicy : ImageResolutionType → Bool
  | .attemptRewrite | .requiredRewrite => true
  | _ => false

/-- `imagepolicy.ImageResolutionPolicyRule`, restricted to the fields
`RewriteImagePullSpec` reads. -/
structure ImageResolutionPolicyRule where
  targetResource : GroupResource
  localNames : Bool
  policy : ImageResolutionType
deriving DecidableEq, Repr

/-- `imagepolicy.ImagePolicyConfig`, restricted to the fields the resolution
policy reads: the global default `ResolveImages` and the per-resource
`ResolutionRules`. -/
structure ImagePolicyConfig where
  resolveImages : ImageResolutionType
  resolutionRules : List ImageResolutionPolicyRule
deriving DecidableEq, Repr

/-- `resolutionRuleCoversResource`: group must match, resource matches
exactly or by the `*` wildcard. -/
def resolutionRuleCoversResource (rule gr : GroupResource) : Bool :=
  rule.group == gr.group && (rule.resource == gr.resource || rule.resource == "*")

/-- `skipImageRewriteOnUpdate`: resource kinds whose specs are immutable on
update and therefore are never rewritten on update. -/
def skipImageRewriteOnUpdate : List GroupResource :=
  [⟨"batch", "jobs"⟩, ⟨"build.openshift.io", "builds"⟩, ⟨"apps", "statefulsets"⟩]

/-- The rule loop of `resolutionConfig.RewriteImagePullSpec`: walk the
resolution rules; a covering rule with `LocalNames` against a local rewrite,
or a covering rule whose policy requests rewriting, answers true immediately;
a covering rule that does neither marks `hasMatchingRule`; after the loop a
marked resource answers false, otherwise the global default decides. -/
def rewriteFromRules (attrLocalRewrite : Bool) (gr : GroupResource)
    (defaultPolicy : ImageResolutionType) :
    List ImageResolutionPolicyRule → Bool → Bool
  | [], hasMatchingRule =>
    if hasMatchingRule then false else rewritePolicy defaultPolicy
  | rule :: rest, hasMatchingRule =>
    if !resolutionRuleCoversResource rule.targetResource gr then
      rewriteFromRules attrLocalRewrite gr defaultPolicy rest hasMatchingRule
    else if rule.localNames && attrLocalRewrite then true
    else if rewritePolicy rule.policy then true
    else rewriteFromRules attrLocalRewrite gr defaultPolicy rest true

/-- `resolutionConfig.RewriteImagePullSpec`: on update of a resource kind in
`skipImageRewriteOnUpdate` the answer is false before any rule is consulted;
otherwise the rule loop and finally the global default decide. -/
def resolutionConfigRewriteImagePullSpec (config : ImagePolicyConfig)
    (attrLocalRewrite isUpdate : Bool) (gr : GroupResource) : Bool :=
  if isUpdate && skipImageRewriteOnUpdate.contains gr then false
  else rewriteFromRules attrLocalRewrite gr config.resolveImages config.resolutionRules false

/-- Formalisation of the SPEC's claimed precedence order for
`RewriteImagePullSpec` (explicit per-resource rule overrides first, then the
immutable-on-update restriction, then the global default): stated from the
spec's words, to be compared against `resolutionConfigRewriteImagePullSpec`. -/
def specOrderRewriteImagePullSpec (config : ImagePolicyConfig)
    (attrLocalRewrite isUpdate : Bool) (gr : GroupResource) : Bool :=
  if config.resolutionRules.any
      (fun rule => resolutionRuleCoversResource rule.targetResource gr) then
    config.resolutionRules.any (fun rule =>
      resolutionRuleCoversResource rule.targetResource gr &&
        (rule.localNames && attrLocalRewrite || rewritePolicy rule.policy))
  else if isUpdate && skipImageRewriteOnUpdate.contains gr then false
  else rewritePolicy config.resolveImages

end ImagePolicy

namespace ClusterResourceQuota

theorem releaseLoop_eq_reverse (l : List String) : releaseLoop l = l.reverse := by
  induction l using List.reverseRecOn with
  | nil => rfl
  | append_singleton l a ih =>
    have hlen : (l ++ [a]).length = l.length + 1 := by simp
    have hmap : ∀ i ∈ (List.range l.length).reverse,
        (l ++ [a]).getD i "" = l.getD i "" := by
      intro i hi
      exact List.getD_append l [a] "" i (List.mem_range.mp (List.mem_reverse.mp hi))
    calc releaseLoop (l ++ [a])
        = (List.range (l.length + 1)).reverse.map (fun i => (l ++ [a]).getD i "") := by
          simp only [releaseLoop, hlen]
      _ = ((l ++ [a]).getD l.length "") ::
            (List.range l.length).reverse.map (fun i => (l ++ [a]).getD i "") := by
          rw [List.range_succ, List.reverse_append]; rfl
      _ = a :: (List.range l.length).reverse.map (fun i => l.getD i "") := by
          rw [List.map_congr_left hmap]
          congr 1
          rw [List.getD_append_right l [a] "" l.length (le_refl _)]
          simp
      _ = a :: l.reverse := by
          have : (List.range l.length).reverse.map (fun i => l.getD i "") = releaseLoop l := rfl
          rw [this, ih]
      _ = (l ++ [a]).reverse := by simp

theorem waitForSyncedStore_exists_of_true (cq nsOk : Nat → Bool) :
    ∀ fuel step, waitForSyncedStore cq nsOk step fuel = true →
      ∃ s, cq s = true ∧ nsOk s = true := by
  intro fuel
  induction fuel with
  | zero =>
    intro step h
    unfold waitForSyncedStore at h
    by_cases hc : (cq step && nsOk step) = true
    · exact ⟨step, Bool.and_eq_true _ _ |>.mp hc⟩
    · rw [if_neg hc] at h
      exact ⟨step + 1, Bool.and_eq_true _ _ |>.mp h⟩
  | succ n ih =>
    intro step h
    unfold waitForSyncedStore at h
    by_cases hc : (cq step && nsOk step) = true
    · exact ⟨step, Bool.and_eq_true _ _ |>.mp hc⟩
    · rw [if_neg hc] at h
      exact ih _ h

theorem waitForSyncedStore_false_of_unsynced (cq nsOk : Nat → Bool) :
    ∀ fuel step, (∀ s, s ≤ step + fuel + 1 → ¬(cq s = true ∧ nsOk s = true)) →
      waitForSyncedStore cq nsOk step fuel = false := by
  intro fuel
  induction fuel with
  | zero =>
    intro step h
    have h1 : (cq step && nsOk step) = false :=
      Bool.eq_false_iff.mpr (fun hx => h step (by omega) (Bool.and_eq_true _ _ |>.mp hx))
    have h2 : (cq (step + 1) && nsOk (step + 1)) = false :=
      Bool.eq_false_iff.mpr (fun hx => h (step + 1) (by omega) (Bool.and_eq_true _ _ |>.mp hx))
    unfold waitForSyncedStore
    rw [if_neg (by simp [h1]), h2]
  | succ n ih =>
    intro step h
    have h1 : (cq step && nsOk step) = false :=
      Bool.eq_false_iff.mpr (fun hx => h step (by omega) (Bool.and_eq_true _ _ |>.mp hx))
    unfold waitForSyncedStore
    rw [if_neg (by simp [h1])]
    exact ih (step + 1) (fun s hs => h s (by omega))

/-- C1: for every list of quota documents passed to `lockAquisition`, the
per-document locks are acquired in ascending order of document name, the
returned release closure releases them in strictly reverse acquisition order,
and the acquired locks are exactly those of the documents passed in. -/
theorem lockAquisition_ordered_and_reverse_release (quotas : List ResourceQuota) :
    List.Sorted (· ≤ ·) (lockAquisition quotas).1 ∧
    (lockAquisition quotas).2 = (lockAquisition quotas).1.reverse ∧
    (lockAquisition quotas).1.Perm (quotas.map (·.name)) := by
  refine ⟨?_, ?_, ?_⟩
  · exact List.pairwise_map.mpr (List.sorted_insertionSort quotaLe quotas)
  · exact releaseLoop_eq_reverse (acquireOrder quotas)
  · exact (List.perm_insertionSort quotaLe quotas).map (·.name)

/-- C2: `clusterQuotaAdmission.Validate` waits a bounded timeout (10 seconds
at 100ms poll intervals) for the cluster-quota and namespace caches to sync;
if every read within the timeout is unsynced it returns Forbidden with
message "caches not synchronized" instead of admitting, and it reaches the
quota evaluator only when some read saw both caches synced. -/
theorem clusterQuotaValidate_waits_and_fails_closed
    (cq nsOk : Nat → Bool)
    (evaluator : QuotaAttributes → AdmissionResult × List String)
    (a : QuotaAttributes) (hsub : a.subresource = "") (hns : a.ns ≠ "") :
    (timeToWaitForCacheSyncMs = 10000 ∧ syncPollIntervalMs = 100 ∧
      syncPollBudget = 100) ∧
    ((∀ s, s ≤ syncPollBudget + 1 → ¬(cq s = true ∧ nsOk s = true)) →
      clusterQuotaValidate cq nsOk evaluator a =
        ⟨.forbidden "caches not synchronized", true, false, []⟩) ∧
    (waitForSyncedStore cq nsOk 0 syncPollBudget = true →
      (∃ s, cq s = true ∧ nsOk s = true) ∧
      clusterQuotaValidate cq nsOk evaluator a =
        ⟨(evaluator a).1, true, true, (evaluator a).2⟩) := by
  refine ⟨⟨rfl, rfl, rfl⟩, ?_, ?_⟩
  · intro h
    have hwait : waitForSyncedStore cq nsOk 0 syncPollBudget = false :=
      waitForSyncedStore_false_of_unsynced cq nsOk syncPollBudget 0
        (fun s hs => h s (by omega))
    simp [clusterQuotaValidate, hsub, hns, hwait]
  · intro h
    refine ⟨waitForSyncedStore_exists_of_true cq nsOk syncPollBudget 0 h, ?_⟩
    simp [clusterQuotaValidate, hsub, hns, h]

theorem clusterQuotaValidate_waits_and_fails_closed_witness :
    clusterQuotaValidate (fun _ => false) (fun _ => true)
        (fun _ => (.ok, [])) ⟨"", "ns1"⟩ =
      ⟨.forbidden "caches not synchronized", true, false, []⟩ :=
  (clusterQuotaValidate_waits_and_fails_closed (fun _ => false) (fun _ => true)
      (fun _ => (.ok, [])) ⟨"", "ns1"⟩ rfl (by decide)).2.1
    (fun s _ hx => by simp at hx)

/-- C8: every subresource operation and every namespace-less operation makes
`clusterQuotaAdmission.Validate` return immediate no-op success: no cache-sync
wait, no lock acquisition, no quota evaluation. -/
theorem clusterQuotaValidate_ignores_subresource_and_clusterScoped
    (cq nsOk : Nat → Bool)
    (evaluator : QuotaAttributes → AdmissionResult × List String)
    (a : QuotaAttributes) (h : a.subresource ≠ "" ∨ a.ns = "") :
    clusterQuotaValidate cq nsOk evaluator a = ⟨.ok, false, false, []⟩ := by
  rcases h with h | h
  · simp [clusterQuotaValidate, h]
  · by_cases hsub : a.subresource ≠ ""
    · simp [clusterQuotaValidate, hsub]
    · simp [clusterQuotaValidate, hsub, h]

theorem clusterQuotaValidate_ignores_subresource_and_clusterScoped_witness :
    clusterQuotaValidate (fun _ => true) (fun _ => true)
        (fun _ => (.forbidden "quota exceeded", ["q1"])) ⟨"status", "ns1"⟩ =
      ⟨.ok, false, false, []⟩ :=
  clusterQuotaValidate_ignores_subresource_and_clusterScoped _ _ _ _
    (Or.inl (by decide))

end ClusterResourceQuota

namespace ImagePolicy

theorem resolveImageReference_eq_byDigest
    (parseRef : String → Except String DockerImageReference)
    (c : ImageResolutionCacheState) (now : Nat) (ref : DockerImageReference)
    (defNs : String) (force : Bool) (hid : ref.id ≠ "") :
    resolveImageReference parseRef c now ref defNs force = resolveByDigest c now ref := by
  simp [resolveImageReference, hid]

theorem cacheGet_cacheAdd (c : ImageCache) (k : String) (e : ImageCacheEntry) :
    cacheGet (cacheAdd c k e) k = some e := by
  simp [cacheGet, cacheAdd, List.find?]

/-- C3: for a digest-qualified reference, `resolveImageReference` returns the
cached image when a cache entry for the digest exists and the current time is
strictly before its expiration (leaving the cache untouched); otherwise it
fetches from the authoritative image store, inserts an entry expiring exactly
one minute (the fixed TTL installed by `newImageResolutionCache`) after the
current time, and returns the fetched record. -/
theorem resolveImageReference_digest_ttl_cache
    (parseRef : String → Except String DockerImageReference)
    (c : ImageResolutionCacheState) (now : Nat) (ref : DockerImageReference)
    (defNs : String) (force : Bool)
    (hid : ref.id ≠ "") (hexp : c.expiration = minuteMs) :
    (∀ cached, cacheGet c.cache ref.id = some cached → now < cached.expires →
      resolveImageReference parseRef c now ref defNs force =
        ⟨some ⟨ref, some cached.image, false, false⟩, none, c.cache⟩) ∧
    (digestCacheHit c.cache now ref.id = none →
      ∀ img, c.imageClient.getImage ref.id = .ok img →
        resolveImageReference parseRef c now ref defNs force =
          ⟨some ⟨ref, some img, c.integrated ref.registry, false⟩, none,
            cacheAdd c.cache ref.id ⟨now + minuteMs, img⟩⟩) ∧
    (∀ client integ, (newImageResolutionCache client integ).expiration = minuteMs) := by
  rw [resolveImageReference_eq_byDigest parseRef c now ref defNs force hid]
  refine ⟨?_, ?_, fun _ _ => rfl⟩
  · intro cached hget hlt
    simp [resolveByDigest, digestCacheHit, hget, hlt]
  · intro hmiss img hstore
    simp [resolveByDigest, hmiss, hstore, hexp]

def c3image : Image := ⟨"sha256:0002", "registry.example.com/a/b@sha256:0002"⟩

def c3client : ImageClient :=
  ⟨fun id => if id = "sha256:0002" then .ok c3image else .error ⟨true, none⟩,
   fun _ _ _ => .error ⟨true, none⟩,
   fun _ _ => .error ⟨true, none⟩⟩

def c3ref : DockerImageReference := ⟨"registry.example.com", "a", "b", "", "sha256:0002"⟩

def c3state : ImageResolutionCacheState := newImageResolutionCache c3client (fun _ => false)

theorem resolveImageReference_digest_ttl_cache_witness :
    resolveImageReference (fun _ => .error "unused") c3state 5 c3ref "default" false =
      ⟨some ⟨c3ref, some c3image, c3state.integrated c3ref.registry, false⟩, none,
        cacheAdd c3state.cache c3ref.id ⟨5 + minuteMs, c3image⟩⟩ :=
  (resolveImageReference_digest_ttl_cache (fun _ => .error "unused") c3state 5 c3ref
      "default" false (by decide) rfl).2.1 rfl c3image rfl

/-- C9: a reference carrying a non-empty content-addressed id takes the digest
branch of `resolveImageReference` regardless of its tag: the result is that of
`resolveByDigest`, and changing the tag changes nothing but the tag echoed in
the returned attributes' Name field (the digest binding, the cache and any
error are tag-invariant). -/
theorem resolveImageReference_prefers_digest_over_tag
    (parseRef : String → Except String DockerImageReference)
    (c : ImageResolutionCacheState) (now : Nat) (ref : DockerImageReference)
    (defNs : String) (force : Bool) (hid : ref.id ≠ "") (t : String) :
    resolveImageReference parseRef c now ref defNs force = resolveByDigest c now ref ∧
    resolveImageReference parseRef c now { ref with tag := t } defNs force =
      { resolveByDigest c now ref with
        attrs := (resolveByDigest c now ref).attrs.map
          (fun a => { a with name := { a.name with tag := t } }) } := by
  refine ⟨resolveImageReference_eq_byDigest parseRef c now ref defNs force hid, ?_⟩
  have hids : ({ ref with tag := t } : DockerImageReference).id = ref.id := rfl
  rw [resolveImageReference_eq_byDigest parseRef c now _ defNs force
    (by rw [hids]; exact hid)]
  unfold resolveByDigest
  rw [hids]
  cases hh : digestCacheHit c.cache now ref.id with
  | some img => simp
  | none =>
    cases hst : c.imageClient.getImage ref.id with
    | error e => simp
    | ok img => simp

theorem resolveImageReference_prefers_digest_over_tag_witness :
    resolveImageReference (fun _ => .error "unused") c3state 5
        { c3ref with tag := "v1" } "default" false =
      { resolveByDigest c3state 5 c3ref with
        attrs := (resolveByDigest c3state 5 c3ref).attrs.map
          (fun a => { a with name := { a.name with tag := "v1" } }) } :=
  (resolveImageReference_prefers_digest_over_tag (fun _ => .error "unused") c3state 5
      c3ref "default" false (by decide) "v1").2

def c4image : Image := ⟨"sha256:0001", "integrated.example.com/a/b@sha256:0001"⟩

def c4client : ImageClient :=
  ⟨fun id => if id = "sha256:0001" then .ok c4image else .error ⟨true, none⟩,
   fun _ _ _ => .error ⟨true, none⟩,
   fun _ _ => .error ⟨true, none⟩⟩

def c4ref : DockerImageReference := ⟨"integrated.example.com", "", "app", "", "sha256:0001"⟩

def c4state : ImageResolutionCacheState :=
  newImageResolutionCache c4client (fun r => r == "integrated.example.com")

def c4miss : ResolveResult :=
  resolveImageReference (fun _ => .error "unused") c4state 0 c4ref "default" false

def c4hit : ResolveResult :=
  resolveImageReference (fun _ => .error "unused")
    { c4state with cache := c4miss.cache } 30000 c4ref "default" false

/-- C4 counterexample: resolving the digest-qualified reference `c4ref` twice
within the one-minute TTL window (at t=0ms, a cache miss, then at t=30000ms, a
cache hit) succeeds both times but returns attributes that are not equal in
every field — they differ in IntegratedRegistry, which the cache-hit path
leaves unset — even though the Image records agree. -/
theorem resolveImageReference_cacheHit_not_identical :
    c4miss.err = none ∧ c4hit.err = none ∧ (30000 : Nat) < minuteMs ∧
    c4miss.attrs ≠ c4hit.attrs ∧
    c4miss.attrs.map (·.image) = c4hit.attrs.map (·.image) := by decide

/-- C4 (amended): a cache-hit resolution of a digest-qualified reference
within the TTL window returns attributes equal to those of the preceding
cache-miss resolution in every field except IntegratedRegistry, which the
cache-hit path leaves unset (false): Name and Image in particular agree. -/
theorem resolveImageReference_cacheHit_matches_miss_except_integratedRegistry
    (parseRef : String → Except String DockerImageReference)
    (c : ImageResolutionCacheState) (t0 t1 : Nat) (ref : DockerImageReference)
    (img : Image) (defNs : String) (force : Bool)
    (hid : ref.id ≠ "")
    (hmiss : digestCacheHit c.cache t0 ref.id = none)
    (hstore : c.imageClient.getImage ref.id = .ok img)
    (ht : t1 < t0 + c.expiration) :
    ∃ a1,
      (resolveImageReference parseRef c t0 ref defNs force).attrs = some a1 ∧
      (resolveImageReference parseRef
          { c with cache := (resolveImageReference parseRef c t0 ref defNs force).cache }
          t1 ref defNs force).attrs = some { a1 with integratedRegistry := false } ∧
      (resolveImageReference parseRef c t0 ref defNs force).err = none ∧
      (resolveImageReference parseRef
          { c with cache := (resolveImageReference parseRef c t0 ref defNs force).cache }
          t1 ref defNs force).err = none := by
  rw [resolveImageReference_eq_byDigest parseRef c t0 ref defNs force hid]
  have h1 : resolveByDigest c t0 ref =
      ⟨some ⟨ref, some img, c.integrated ref.registry, false⟩, none,
        cacheAdd c.cache ref.id ⟨t0 + c.expiration, img⟩⟩ := by
    simp [resolveByDigest, hmiss, hstore]
  rw [resolveImageReference_eq_byDigest parseRef _ t1 ref defNs force hid, h1]
  have h2 : digestCacheHit (cacheAdd c.cache ref.id ⟨t0 + c.expiration, img⟩) t1 ref.id =
      some img := by
    simp [digestCacheHit, cacheGet_cacheAdd, ht]
  refine ⟨⟨ref, some img, c.integrated ref.registry, false⟩, rfl, ?_, rfl, ?_⟩ <;>
    simp [resolveByDigest, h2]

theorem resolveImageReference_cacheHit_matches_miss_except_integratedRegistry_witness :
    ∃ a1,
      (resolveImageReference (fun _ => .error "unused") c4state 0 c4ref "default" false).attrs
        = some a1 ∧
      (resolveImageReference (fun _ => .error "unused")
          { c4state with
            cache := (resolveImageReference (fun _ => .error "unused") c4state 0 c4ref
              "default" false).cache }
          30000 c4ref "default" false).attrs = some { a1 with integratedRegistry := false } ∧
      (resolveImageReference (fun _ => .error "unused") c4state 0 c4ref "default" false).err
        = none ∧
      (resolveImageReference (fun _ => .error "unused")
          { c4state with
            cache := (resolveImageReference (fun _ => .error "unused") c4state 0 c4ref
              "default" false).cache }
          30000 c4ref "default" false).err = none :=
  resolveImageReference_cacheHit_matches_miss_except_integratedRegistry
    (fun _ => .error "unused") c4state 0 30000 c4ref c4image "default" false
    (by decide) rfl rfl (by decide)

/-- C6: on a tag-not-found error, when the owning stream exists, is configured
for local-name resolution (or resolution is forced) and its repository is
known (non-empty and parseable), `resolveImageStreamTag` synthesizes a
repository:tag reference with LocalRewrite=true and the Image field unset
instead of failing; when the stream is not configured for local resolution and
resolution is not forced, it fails with the original error. -/
theorem resolveImageStreamTag_tag_not_found_fallback
    (parseRef : String → Except String DockerImageReference)
    (c : ImageResolutionCacheState) (now : Nat) (ns name tag : String)
    (localRef force : Bool) (e : StoreError) (stream : ImageStream)
    (htag : c.imageClient.getImageStreamTag ns name tag = .error e)
    (hnf : isImageStreamTagNotFound e = true)
    (hstream : c.imageClient.getImageStream ns name = .ok stream) :
    (∀ r, (force || stream.lookupLocal) = true → stream.statusRepository ≠ "" →
      parseRef stream.statusRepository = .ok r →
      resolveImageStreamTag parseRef c now ns name tag localRef force =
        ⟨some ⟨{ r with tag := tag }, none, !localRef, true⟩, none, c.cache⟩) ∧
    (force = false → stream.lookupLocal = false →
      resolveImageStreamTag parseRef c now ns name tag localRef force =
        ⟨some ⟨DockerImageReference.empty, none, !localRef, false⟩,
          some (.store e), c.cache⟩) := by
  constructor
  · intro r hloc hrepo hparse
    cases localRef <;>
      simp [resolveImageStreamTag, htag, hnf, hstream, hloc, hrepo, hparse]
  · intro hf hl
    cases localRef <;>
      simp [resolveImageStreamTag, htag, hnf, hstream, hf, hl]

def c6err : StoreError := ⟨true, some ("imagestreamtags", "image.openshift.io")⟩

def c6stream : ImageStream := ⟨true, "registry.example.com/ns1/app"⟩

def c6client : ImageClient :=
  ⟨fun _ => .error ⟨true, none⟩,
   fun _ _ _ => .error c6err,
   fun n s => if n = "ns1" ∧ s = "app" then .ok c6stream else .error ⟨true, none⟩⟩

def c6parse : String → Except String DockerImageReference :=
  fun s =>
    if s = "registry.example.com/ns1/app" then
      .ok ⟨"registry.example.com", "ns1", "app", "", ""⟩
    else .error "parse failure"

def c6state : ImageResolutionCacheState := newImageResolutionCache c6client (fun _ => false)

theorem resolveImageStreamTag_tag_not_found_fallback_witness :
    resolveImageStreamTag c6parse c6state 0 "ns1" "app" "v2" false false =
      ⟨some ⟨⟨"registry.example.com", "ns1", "app", "v2", ""⟩, none, !false, true⟩,
        none, c6state.cache⟩ :=
  (resolveImageStreamTag_tag_not_found_fallback c6parse c6state 0 "ns1" "app" "v2"
      false false c6err c6stream rfl (by decide) rfl).1
    ⟨"registry.example.com", "ns1", "app", "", ""⟩ (by decide) (by decide) rfl

theorem mutationPreventerFn_ok_eq
    (fn : ObjectReference → Except String ObjectReference) (r r' : ObjectReference)
    (hf : mutationPreventerFn fn r = .ok r') : r' = r := by
  unfold mutationPreventerFn at hf
  cases hfn : fn r with
  | error e => rw [hfn] at hf; exact absurd hf (by simp)
  | ok r'' =>
    rw [hfn] at hf
    dsimp only at hf
    by_cases hne : r'' ≠ r
    · rw [if_pos hne] at hf; exact absurd hf (by simp)
    · rw [if_neg hne] at hf
      injection hf with h
      rw [← h]
      exact not_ne_iff.mp hne

theorem mutationPreventerMutate_fst
    (fn : ObjectReference → Except String ObjectReference) :
    ∀ refs, (mutationPreventerMutate fn refs).1 = refs := by
  intro refs
  induction refs with
  | nil => rfl
  | cons r rest ih =>
    unfold mutationPreventerMutate mutateRefs
    cases hf : mutationPreventerFn fn r with
    | ok r' =>
      simpa [mutationPreventerFn_ok_eq fn r r' hf] using ih
    | error e =>
      simpa using ih

theorem mem_mutateRefs_errors
    (fn : ObjectReference → Except String ObjectReference) (m : String) :
    ∀ refs r, r ∈ refs → fn r = .error m → m ∈ (mutateRefs fn refs).2 := by
  intro refs
  induction refs with
  | nil => intro r h; cases h
  | cons a rest ih =>
    intro r hr hfn
    unfold mutateRefs
    rcases List.mem_cons.mp hr with h | h
    · subst h; rw [hfn]; exact List.mem_cons_self _ _
    · cases hfa : fn a with
      | ok a' => simpa using ih r h hfn
      | error e => exact List.mem_cons_of_mem _ (ih r h hfn)

/-- C7: in validation mode (mutationAllowed=false, the `Validate` path) any
attempted rewrite that would change an image reference of the incoming object
makes the mutation fail with an error containing "changed after admission",
and the object's image references are left unchanged (the mutation-prevented
mutator never alters the object). -/
theorem validationMode_rejects_changed_reference
    (fn : ObjectReference → Except String ObjectReference)
    (refs : List ObjectReference) (ref ref' : ObjectReference)
    (href : ref ∈ refs) (hfn : fn ref = .ok ref') (hne : ref' ≠ ref) :
    (admissionMutate false fn refs).1 = refs ∧
    ∃ msg ∈ (admissionMutate false fn refs).2,
      ∃ s1 s2, msg = s1 ++ "changed after admission" ++ s2 := by
  constructor
  · simpa [admissionMutate] using mutationPreventerMutate_fst fn refs
  · have hmsg : mutationPreventerFn fn ref =
        .error "this image is prohibited by policy (changed after admission)" := by
      unfold mutationPreventerFn
      rw [hfn]
      simp [hne]
    have hmem := mem_mutateRefs_errors (mutationPreventerFn fn) _ refs ref href hmsg
    refine ⟨_, by simpa [admissionMutate, mutationPreventerMutate] using hmem,
      "this image is prohibited by policy (", ")", by decide⟩

def c7fn : ObjectReference → Except String ObjectReference :=
  fun r => .ok { r with name := "registry.example.com/a/b@sha256:0003" }

def c7refs : List ObjectReference := [⟨"DockerImage", "busybox"⟩]

theorem validationMode_rejects_changed_reference_witness :
    (admissionMutate false c7fn c7refs).1 = c7refs ∧
    ∃ msg ∈ (admissionMutate false c7fn c7refs).2,
      ∃ s1 s2, msg = s1 ++ "changed after admission" ++ s2 :=
  validationMode_rejects_changed_reference c7fn c7refs ⟨"DockerImage", "busybox"⟩
    ⟨"DockerImage", "registry.example.com/a/b@sha256:0003"⟩
    (by decide) rfl (by decide)

theorem rewriteFromRules_characterization (attrLR : Bool) (gr : GroupResource)
    (d : ImageResolutionType) :
    ∀ (rules : List ImageResolutionPolicyRule) (flag : Bool),
      rewriteFromRules attrLR gr d rules flag =
        if rules.any (fun rule =>
            resolutionRuleCoversResource rule.targetResource gr &&
              (rule.localNames && attrLR || rewritePolicy rule.policy)) then true
        else if flag ||
            rules.any (fun rule => resolutionRuleCoversResource rule.targetResource gr) then
          false
        else rewritePolicy d := by
  intro rules
  induction rules with
  | nil =>
    intro flag
    cases flag <;> simp [rewriteFromRules]
  | cons rule rest ih =>
    intro flag
    unfold rewriteFromRules
    by_cases hc : resolutionRuleCoversResource rule.targetResource gr = true
    · by_cases h1 : (rule.localNames && attrLR) = true
      · simp [hc, h1]
      · by_cases h2 : rewritePolicy rule.policy = true
        · simp [hc, h1, h2]
        · simp only [Bool.not_eq_true] at h1 h2
          simp [hc, h1, h2, ih true]
    · simp only [Bool.not_eq_true] at hc
      simp [hc, ih flag]

/-- C5 counterexample: for an update of batch/jobs — a resource kind whose
specs are immutable on update — with an explicit covering resolution rule
whose AttemptRewrite policy requests rewriting, the source's
RewriteImagePullSpec answers false (the immutable-on-update restriction is
applied before any rule), while the precedence order the claim states (rule
overrides first) would answer true. -/
theorem rewriteImagePullSpec_rule_does_not_override_update_skip :
    resolutionConfigRewriteImagePullSpec
        ⟨.doNotAttempt, [⟨⟨"batch", "jobs"⟩, false, .attemptRewrite⟩]⟩
        false true ⟨"batch", "jobs"⟩ = false ∧
    specOrderRewriteImagePullSpec
        ⟨.doNotAttempt, [⟨⟨"batch", "jobs"⟩, false, .attemptRewrite⟩]⟩
        false true ⟨"batch", "jobs"⟩ = true ∧
    rewritePolicy .attemptRewrite = true := by decide

/-- C5 (amended): `RewriteImagePullSpec` decides in this precedence order:
first the immutable-on-update restriction (kinds in `skipImageRewriteOnUpdate`
are never rewritten on update, even when a covering rule requests rewriting);
then explicit per-resource-kind rule overrides (a covering rule whose
LocalNames matches a local rewrite or whose policy requests rewriting answers
true, and covering rules that do neither answer false); and the global default
resolution policy only when no rule covers the resource. -/
theorem rewriteImagePullSpec_actual_precedence (config : ImagePolicyConfig)
    (attrLR isUpdate : Bool) (gr : GroupResource) :
    resolutionConfigRewriteImagePullSpec config attrLR isUpdate gr =
      if isUpdate && skipImageRewriteOnUpdate.contains gr then false
      else if config.resolutionRules.any (fun rule =>
          resolutionRuleCoversResource rule.targetResource gr &&
            (rule.localNames && attrLR || rewritePolicy rule.policy)) then true
      else if config.resolutionRules.any (fun rule =>
          resolutionRuleCoversResource rule.targetResource gr) then false
      else rewritePolicy config.resolveImages := by
  unfold resolutionConfigRewriteImagePullSpec
  by_cases hskip : (isUpdate && skipImageRewriteOnUpdate.contains gr) = true
  · rw [if_pos hskip, if_pos hskip]
  · rw [if_neg hskip, if_neg hskip,
      rewriteFromRules_characterization attrLR gr config.resolveImages
        config.resolutionRules false]
    simp only [Bool.false_or]

/-- C10: `imagePolicyPlugin.admit` returns success without inspecting or
modifying the object for every operation other than Create and Update, and for
every Create or Update that targets a subresource. -/
theorem imagePolicyAdmission_noop_for_nonwrite_or_subresource
    (op : AdmissionOperation) (subresource : String)
    (body : Unit → ImagePolicyAdmissionOutcome)
    (h : (op ≠ .create ∧ op ≠ .update) ∨ subresource ≠ "") :
    imagePolicyAdmission op subresource body = ⟨none, false, false⟩ := by
  cases op with
  | create =>
    rcases h with ⟨h1, _⟩ | h
    · exact absurd rfl h1
    · simp [imagePolicyAdmission, h]
  | update =>
    rcases h with ⟨_, h2⟩ | h
    · exact absurd rfl h2
    · simp [imagePolicyAdmission, h]
  | delete => rfl
  | connect => rfl

theorem imagePolicyAdmission_noop_for_nonwrite_or_subresource_witness :
    imagePolicyAdmission .delete ""
        (fun _ => ⟨some "body ran", true, true⟩) = ⟨none, false, false⟩ :=
  imagePolicyAdmission_noop_for_nonwrite_or_subresource _ _ _ (Or.inl (by decide))

end ImagePolicy
